import Mathlib

set_option maxHeartbeats 1000000

/-
  Verification development for the pdf-to-markdown CLI (src/result.ts).
  The TypeScript source is shallowly embedded: external effects (argv,
  environment variables, file stats, the OCR service, S3 PUTs, file
  writes, the clock) are inputs of the model, and the pure control flow
  and data transformations of the source are translated directly.
-/

namespace PdfToMarkdown

-- ## Error taxonomy (classes BaseError / ValidationError / NotFoundError / SystemError)

inductive AppError where
  | validation (msg : String)
  | notFound (entityName id : String)
  | system (msg : String)
deriving DecidableEq

-- Message produced by the constructors (BaseError prepends nothing; each
-- subclass formats its own message).
def AppError.message : AppError → String
  | .validation m => "バリデーションエラー: " ++ m
  | .notFound e i => e ++ "(ID: " ++ i ++ ")が見つかりません"
  | .system m => "システムエラー: " ++ m

-- ## JavaScript truthiness for optional strings (`if (!x)` on string|null|undefined)

def jsTruthy : Option String → Bool
  | none => false
  | some s => !(s == "")

-- ## Data model of the OCR result (OCRPageObject)

structure EmbeddedImage where
  id : String
  imageBase64 : Option String
  bottomRightX : Option Int := none
  bottomRightY : Option Int := none
  topLeftX : Option Int := none
  topLeftY : Option Int := none
deriving DecidableEq

structure Dimensions where
  dpi : Option Nat := none
  height : Option Nat := none
  width : Option Nat := none
deriving DecidableEq

structure OCRPageObject where
  index : Nat
  markdown : String
  images : List EmbeddedImage
  dimensions : Option Dimensions := none
deriving DecidableEq

structure PublishedImage where
  id : String
  url : String
deriving DecidableEq

abbrev ImageMap := List PublishedImage

-- ## Generic list helper (JS Array.prototype.flatMap)

def concatMap (f : α → List β) : List α → List β
  | [] => []
  | a :: l => f a ++ concatMap f l

-- ## JS string helpers used by uploadImages

-- The character class \w of the stripping regex.
def isWordChar (c : Char) : Bool :=
  c.isAlphanum || c == '_'

-- The character class \s of JavaScript regular expressions.
def jsIsSpace (c : Char) : Bool :=
  let n := c.toNat
  n == 32 || n == 9 || n == 10 || n == 11 || n == 12 || n == 13 ||
  n == 0xa0 || n == 0x1680 || (decide (0x2000 ≤ n) && decide (n ≤ 0x200a)) ||
  n == 0x2028 || n == 0x2029 || n == 0x202f || n == 0x205f || n == 0x3000 ||
  n == 0xfeff

-- Drop a literal from the front of a character list, or fail.
def dropLit : List Char → List Char → Option (List Char)
  | [], cs => some cs
  | _ :: _, [] => none
  | p :: ps, c :: cs => if c = p then dropLit ps cs else none

-- `.replace(/^data:image\/\w+;base64,/, "")`: remove the anchored data-URI
-- marker when it matches, otherwise return the input unchanged.
def stripDataUrl (cs : List Char) : List Char :=
  match dropLit "data:image/".data cs with
  | none => cs
  | some rest =>
    let ws := rest.takeWhile isWordChar
    if ws.isEmpty then cs
    else
      match dropLit ";base64,".data (rest.dropWhile isWordChar) with
      | none => cs
      | some rest2 => rest2

-- `.replace(/^data:image\/\w+;base64,/, "").replace(/\s+/g, "")`
def processPayload (s : String) : String :=
  String.mk ((stripDataUrl s.data).filter (fun c => !(jsIsSpace c)))

-- ## Base64 decoding (std decodeBase64, i.e. atob's forgiving-base64)

def asciiWS (c : Char) : Bool :=
  c == ' ' || c == '\t' || c == '\n' || c == '\x0c' || c == '\r'

def b64Val (c : Char) : Option Nat :=
  let n := c.toNat
  if 65 ≤ n ∧ n ≤ 90 then some (n - 65)
  else if 97 ≤ n ∧ n ≤ 122 then some (n - 97 + 26)
  else if 48 ≤ n ∧ n ≤ 57 then some (n - 48 + 52)
  else if n = 43 then some 62
  else if n = 47 then some 63
  else none

def dropTrailingEq (cs : List Char) : List Char :=
  match cs.reverse with
  | '=' :: '=' :: rest => rest.reverse
  | '=' :: rest => rest.reverse
  | _ => cs

def b64Groups : List Char → Option (List Nat)
  | [] => some []
  | [_] => none
  | [a, b] => do
    let va ← b64Val a
    let vb ← b64Val b
    some [(va * 64 + vb) / 16]
  | [a, b, c] => do
    let va ← b64Val a
    let vb ← b64Val b
    let vc ← b64Val c
    let m := (va * 64 + vb) * 64 + vc
    some [m / 1024, m / 4 % 256]
  | a :: b :: c :: d :: rest => do
    let va ← b64Val a
    let vb ← b64Val b
    let vc ← b64Val c
    let vd ← b64Val d
    let m := ((va * 64 + vb) * 64 + vc) * 64 + vd
    let tail ← b64Groups rest
    some ([m / 65536, m / 256 % 256, m % 256] ++ tail)

def decodeBase64 (s : String) : Option (List Nat) :=
  let cs := s.data.filter (fun c => !(asciiWS c))
  let cs2 := if cs.length % 4 == 0 then dropTrailingEq cs else cs
  b64Groups cs2

-- ## Date formatting (`new Date()` read once per uploadImages run)

structure JSDate where
  fullYear : Nat
  month : Nat   -- zero-based, as returned by getMonth()
  date : Nat
deriving DecidableEq

-- String(x).padStart(2, "0")
def padStart2 (s : String) : String :=
  if s.length ≥ 2 then s else String.mk (List.replicate (2 - s.length) '0') ++ s

def ymdString (d : JSDate) : String :=
  toString d.fullYear ++ "-" ++ padStart2 (toString (d.month + 1)) ++ "-" ++
    padStart2 (toString d.date)

-- ## CLI argument parsing (node:util parseArgs, strict, no positionals)

inductive ParseArgsError where
  | unexpectedPositional (tok : String)
  | unknownOption (tok : String)
  | missingValue (tok : String)
deriving DecidableEq

structure ParsedValues where
  input : Option String
  outDir : Option String
deriving DecidableEq

def setOpt (v : ParsedValues) (name val : String) : ParsedValues :=
  if name = "input" then { v with input := some val }
  else { v with outDir := some val }

-- Split a long-option body at the first '='.
def splitAtEq : List Char → List Char × Option (List Char)
  | [] => ([], none)
  | c :: rest =>
    if c = '=' then ([], some rest)
    else
      let p := splitAtEq rest
      (c :: p.1, p.2)

-- Classification of one argv token, following the node tokenizer: `--` is
-- the option terminator, `--body` a long option, `-c...` a short option,
-- and everything else (including `-` and the empty string) a positional.
inductive TokKind where
  | terminator
  | long (body : List Char)
  | short (c : Char) (rest : List Char)
  | positional
deriving DecidableEq

def classifyTok : List Char → TokKind
  | '-' :: '-' :: [] => .terminator
  | '-' :: '-' :: c :: cs => .long (c :: cs)
  | '-' :: c :: cs => .short c cs
  | _ => .positional

-- One pass over argv.  `pending = some (name, tok)` means option `tok`
-- (stored under long name `name`) still awaits its value.
def parseArgsLoop (v : ParsedValues) (pending : Option (String × String)) :
    List String → Except ParseArgsError ParsedValues
  | [] =>
    match pending with
    | some p => .error (.missingValue p.2)
    | none => .ok v
  | tok :: rest =>
    match pending with
    | some p => parseArgsLoop (setOpt v p.1 tok) none rest
    | none =>
      match classifyTok tok.data with
      | .terminator =>
        match rest with
        | [] => .ok v
        | t :: _ => .error (.unexpectedPositional t)
      | .long body =>
        let nameCs := (splitAtEq body).1
        let valOpt := (splitAtEq body).2
        let name := String.mk nameCs
        if name = "input" ∨ name = "outDir" then
          match valOpt with
          | some valCs => parseArgsLoop (setOpt v name (String.mk valCs)) none rest
          | none => parseArgsLoop v (some (name, tok)) rest
        else .error (.unknownOption tok)
      | .short c restCs =>
        if c = 'i' ∨ c = 'o' then
          let name := if c = 'i' then "input" else "outDir"
          if restCs.isEmpty then parseArgsLoop v (some (name, tok)) rest
          else parseArgsLoop (setOpt v name (String.mk restCs)) none rest
        else .error (.unknownOption tok)
      | .positional => .error (.unexpectedPositional tok)

def parseArgs (argv : List String) : Except ParseArgsError ParsedValues :=
  parseArgsLoop ⟨none, none⟩ none argv

-- ## File kinds as observed through Deno.statSync

inductive FileKind where
  | file
  | directory
  | other
deriving DecidableEq

-- getCliArgs: parseArgs is not wrapped in try/catch, so a parse error is a
-- rejected promise (an uncaught throw at the program boundary), distinct
-- from the returned Result values.
inductive CliOutcome where
  | thrown (e : ParseArgsError)
  | errR (e : AppError)
  | okA (input outDir : String)
deriving DecidableEq

def getCliArgs (argv : List String) (fs : String → Option FileKind) : CliOutcome :=
  match parseArgs argv with
  | .error pe => .thrown pe
  | .ok v =>
    if jsTruthy v.input = false then .errR (.validation "args.input が見つかりません")
    else if jsTruthy v.outDir = false then .errR (.validation "args.outDir が見つかりません")
    else
      let input := v.input.getD ""
      let outDir := v.outDir.getD ""
      match fs input with
      | none => .errR (.validation "args.input が存在しません")
      | some k =>
        if k ≠ FileKind.file then .errR (.validation "args.input はファイルではありません")
        else
          match fs outDir with
          | none => .errR (.validation "args.outDir が存在しません")
          | some k2 =>
            if k2 ≠ FileKind.directory then .errR (.validation "args.outDir はディレクトリではありません")
            else .okA input outDir

-- ## Environment loading (getEnvs)

structure Env where
  MISTRAL_OCR_API_KEY : String
  R2_S3_URL : String
  R2_ACCESS_KEY_ID : String
  R2_SECRET_ACCESS_KEY : String
  R2_BUCKET_NAME : String
  R2_PUBLIC_URL : String
deriving DecidableEq

def getEnvs (env : String → Option String) : Except AppError Env :=
  if jsTruthy (env "MISTRAL_OCR_API_KEY") = false then
    .error (.validation "MISTRAL_OCR_API_KEY が見つかりません")
  else if jsTruthy (env "R2_S3_URL") = false then
    .error (.validation "R2_S3_URL が見つかりません")
  else if jsTruthy (env "R2_ACCESS_KEY_ID") = false then
    .error (.validation "R2_ACCESS_KEY_ID が見つかりません")
  else if jsTruthy (env "R2_SECRET_ACCESS_KEY") = false then
    .error (.validation "R2_SECRET_ACCESS_KEY が見つかりません")
  else if jsTruthy (env "R2_BUCKET_NAME") = false then
    .error (.validation "R2_BUCKET_NAME が見つかりません")
  else if jsTruthy (env "R2_PUBLIC_URL") = false then
    .error (.validation "R2_PUBLIC_URL が見つかりません")
  else
    .ok ⟨(env "MISTRAL_OCR_API_KEY").getD "", (env "R2_S3_URL").getD "",
         (env "R2_ACCESS_KEY_ID").getD "", (env "R2_SECRET_ACCESS_KEY").getD "",
         (env "R2_BUCKET_NAME").getD "", (env "R2_PUBLIC_URL").getD ""⟩

-- ## OCR stage (processOcr): the remote OCR interaction is an input; any
-- failure collapses to one fixed SystemError, discarding the cause.

def processOcr (r : Except String (List OCRPageObject)) :
    Except AppError (List OCRPageObject) :=
  match r with
  | .error _ => .error (.system "OCR 処理に失敗しました")
  | .ok pages => .ok pages

-- ## ensureDir stage of main

def ensureDirStage (r : Except String Unit) : Except AppError Unit :=
  match r with
  | .error _ => .error (.system "ディレクトリの作成に失敗しました")
  | .ok _ => .ok ()

-- ## Image publishing (uploadImages)

structure PutRequest where
  bucket : String
  key : String
  body : List Nat
  contentType : String
  acl : String
deriving DecidableEq

-- Mapping entry produced for one image (`uploaded.push({ id, url })`).
def mkEntry (publicUrl ymd : String) (img : EmbeddedImage) : PublishedImage :=
  ⟨img.id, publicUrl ++ "/" ++ ("paper/" ++ ymd ++ "/" ++ img.id ++ ".png")⟩

-- The loop body of uploadImages.  `put` is the S3 client; the PutRequest
-- trace records every PUT that was sent.  A decode throw or a failed PUT
-- rejects the whole promise with a cause string.
def uploadImagesGo (put : PutRequest → Except String Unit)
    (bucketName publicUrl ymd : String) :
    List EmbeddedImage → ImageMap → List PutRequest →
      List PutRequest × Except String ImageMap
  | [], acc, tr => (tr, .ok acc)
  | img :: rest, acc, tr =>
    if jsTruthy img.imageBase64 then
      match decodeBase64 (processPayload (img.imageBase64.getD "")) with
      | none => (tr, .error "InvalidCharacterError")
      | some body =>
        let req : PutRequest :=
          ⟨bucketName, "paper/" ++ ymd ++ "/" ++ img.id ++ ".png", body,
           "image/png", "public-read"⟩
        match put req with
        | .error e => (tr ++ [req], .error e)
        | .ok _ =>
          uploadImagesGo put bucketName publicUrl ymd rest
            (acc ++ [mkEntry publicUrl ymd img]) (tr ++ [req])
    else uploadImagesGo put bucketName publicUrl ymd rest acc tr

def uploadImages (put : PutRequest → Except String Unit)
    (bucketName publicUrl : String) (today : JSDate)
    (images : List EmbeddedImage) : List PutRequest × Except AppError ImageMap :=
  match uploadImagesGo put bucketName publicUrl (ymdString today) images [] [] with
  | (tr, .error e) => (tr, .error (.system ("画像のアップロードに失敗しました: " ++ e)))
  | (tr, .ok m) => (tr, .ok m)

-- ## Markdown assembly (generateMarkdown)

-- `join` from std/path applied to a directory path and a file name.
def joinP (dir name : String) : String := dir ++ "/" ++ name

-- Array.prototype.join("\n")
def joinNL : List String → String
  | [] => ""
  | [x] => x
  | x :: y :: xs => x ++ "\n" ++ joinNL (y :: xs)

-- Generic separator join, used only to state properties of the output.
def joinSep (sep : String) : List String → String
  | [] => ""
  | [x] => x
  | x :: y :: xs => x ++ sep ++ joinSep sep (y :: xs)

-- The lines pushed for one image of a page (find + push + blank line).
def imageRef (m : ImageMap) (img : EmbeddedImage) : List String :=
  match m.find? (fun u => u.id == img.id) with
  | some u => ["![" ++ img.id ++ "](" ++ u.url ++ ")", ""]
  | none => []

-- The inner image loop of generateMarkdown.
def imageLines (m : ImageMap) : List EmbeddedImage → List String
  | [] => []
  | img :: rest =>
    match m.find? (fun u => u.id == img.id) with
    | none => imageLines m rest
    | some u => ("![" ++ img.id ++ "](" ++ u.url ++ ")") :: "" :: imageLines m rest

-- The `lines` array accumulated for one page.
def pageLines (m : ImageMap) (o : OCRPageObject) : List String :=
  ["# Page " ++ toString (o.index + 1), "", o.markdown, ""] ++ imageLines m o.images

def pageContent (m : ImageMap) (o : OCRPageObject) : String :=
  joinNL (pageLines m o)

structure WrittenFile where
  path : String
  content : String
deriving DecidableEq

def pageWrite (m : ImageMap) (outDir : String) (o : OCRPageObject) : WrittenFile :=
  ⟨joinP outDir ("page-" ++ toString (o.index + 1) ++ ".md"), pageContent m o⟩

-- The page loop of generateMarkdown.  `write` is Deno.writeTextFile; the
-- WrittenFile trace records the files actually written.
def generateMarkdownGo (write : WrittenFile → Except String Unit)
    (m : ImageMap) (outDir : String) :
    List OCRPageObject → List String → List WrittenFile →
      List WrittenFile × Except String (List String)
  | [], combined, tr => (tr, .ok combined)
  | o :: rest, combined, tr =>
    match write (pageWrite m outDir o) with
    | .error e => (tr, .error e)
    | .ok _ =>
      generateMarkdownGo write m outDir rest (combined ++ (pageLines m o ++ [""]))
        (tr ++ [pageWrite m outDir o])

def generateMarkdown (write : WrittenFile → Except String Unit)
    (m : ImageMap) (outDir : String) (objects : List OCRPageObject) :
    List WrittenFile × Except AppError Unit :=
  match generateMarkdownGo write m outDir objects [] [] with
  | (tr, .error e) => (tr, .error (.system ("マークダウンの生成に失敗しました: " ++ e)))
  | (tr, .ok combined) =>
    match write ⟨joinP outDir "all-pages.md", joinNL combined⟩ with
    | .error e => (tr, .error (.system ("マークダウンの生成に失敗しました: " ++ e)))
    | .ok _ => (tr ++ [⟨joinP outDir "all-pages.md", joinNL combined⟩], .ok ())

-- ## The orchestrator (main) and process boundary (import.meta.main)

structure World where
  argv : List String
  env : String → Option String
  fs : String → Option FileKind
  ensureDirR : Except String Unit
  ocrR : Except String (List OCRPageObject)
  put : PutRequest → Except String Unit
  write : WrittenFile → Except String Unit
  today : JSDate

inductive Stage where
  | cli
  | env
  | dir
  | ocr
  | upload
  | md
deriving DecidableEq

structure RunTrace where
  stages : List Stage
  puts : List PutRequest
  writes : List WrittenFile
deriving DecidableEq

inductive RunOutcome where
  | uncaught (e : ParseArgsError)
  | failure (e : AppError)
  | success
deriving DecidableEq

def main (w : World) : RunTrace × RunOutcome :=
  match getCliArgs w.argv w.fs with
  | .thrown pe => (⟨[.cli], [], []⟩, .uncaught pe)
  | .errR e => (⟨[.cli], [], []⟩, .failure e)
  | .okA _input outDir =>
    match getEnvs w.env with
    | .error e => (⟨[.cli, .env], [], []⟩, .failure e)
    | .ok envs =>
      match ensureDirStage w.ensureDirR with
      | .error e => (⟨[.cli, .env, .dir], [], []⟩, .failure e)
      | .ok _ =>
        match processOcr w.ocrR with
        | .error e => (⟨[.cli, .env, .dir, .ocr], [], []⟩, .failure e)
        | .ok pages =>
          match uploadImages w.put envs.R2_BUCKET_NAME envs.R2_PUBLIC_URL w.today
              (concatMap (fun o => o.images) pages) with
          | (tr, .error e) => (⟨[.cli, .env, .dir, .ocr, .upload], tr, []⟩, .failure e)
          | (tr, .ok imap) =>
            match generateMarkdown w.write imap outDir pages with
            | (wr, .error e) =>
              (⟨[.cli, .env, .dir, .ocr, .upload, .md], tr, wr⟩, .failure e)
            | (wr, .ok _) =>
              (⟨[.cli, .env, .dir, .ocr, .upload, .md], tr, wr⟩, .success)

inductive Printed where
  | nothing
  | appErr (e : AppError)
  | thrownErr (e : ParseArgsError)
deriving DecidableEq

structure ProgramExit where
  code : Nat
  printed : Printed
deriving DecidableEq

-- result.match(() => {}, (err) => { console.error(err); Deno.exit(1); });
-- an uncaught rejection is printed by the runtime and exits nonzero.
def exitOf : RunOutcome → ProgramExit
  | .success => ⟨0, .nothing⟩
  | .failure e => ⟨1, .appErr e⟩
  | .uncaught pe => ⟨1, .thrownErr pe⟩

def runProgram (w : World) : ProgramExit :=
  exitOf (main w).2

-- ## Concrete oracles and fixtures used to evaluate the model

-- The all-succeeding write and PUT oracles used to state success-path claims.
def okWrite : WrittenFile → Except String Unit := fun _ => .ok ()

def okPut : PutRequest → Except String Unit := fun _ => .ok ()

def failPut : PutRequest → Except String Unit := fun _ => .error "PutFail"

def failPut2 : PutRequest → Except String Unit := fun _ => .error "AccessDenied"

def failWrite : WrittenFile → Except String Unit := fun _ => .error "WriteFail"

def failAllWrite : WrittenFile → Except String Unit :=
  fun f => if f.path = "out/all-pages.md" then .error "AllFail" else .ok ()

def d0 : JSDate := ⟨2026, 9, 12⟩

-- "QUJD" is the base64 encoding of the bytes 65 66 67.
def imgA : EmbeddedImage := ⟨"a", some "QUJD", none, none, none, none⟩

def imgB : EmbeddedImage := ⟨"b", none, none, none, none, none⟩

def p0 : OCRPageObject := ⟨0, "Hello", [], none⟩

def p1 : OCRPageObject := ⟨0, "Hello", [imgA, imgB], none⟩

def p2 : OCRPageObject := ⟨1, "World", [], none⟩

def m0 : ImageMap := [⟨"a", "https://pub/paper/2026-10-12/a.png"⟩]

def m1 : ImageMap := [⟨"a", "v-R2_PUBLIC_URL/paper/2026-10-12/a.png"⟩]

def req0 : PutRequest :=
  ⟨"v-R2_BUCKET_NAME", "paper/2026-10-12/a.png", [65, 66, 67], "image/png", "public-read"⟩

def reqA : PutRequest :=
  ⟨"bkt", "paper/2026-10-12/a.png", [65, 66, 67], "image/png", "public-read"⟩

def wr0 : List WrittenFile :=
  [pageWrite m1 "out" p1, pageWrite m1 "out" p2,
   ⟨"out/all-pages.md", joinNL (concatMap (fun o => pageLines m1 o ++ [""]) [p1, p2])⟩]

def env0 : String → Option String := fun k => some ("v-" ++ k)

def env1 : String → Option String :=
  fun k => if k = "R2_S3_URL" then none else some ("v-" ++ k)

def env2 : String → Option String :=
  fun k => if k = "MISTRAL_OCR_API_KEY" then some "" else some ("v-" ++ k)

def envs0 : Env :=
  ⟨"v-MISTRAL_OCR_API_KEY", "v-R2_S3_URL", "v-R2_ACCESS_KEY_ID",
   "v-R2_SECRET_ACCESS_KEY", "v-R2_BUCKET_NAME", "v-R2_PUBLIC_URL"⟩

def fs0 : String → Option FileKind :=
  fun p => if p = "in.pdf" then some .file
    else if p = "out" then some .directory else none

def w0 : World :=
  ⟨["-i", "in.pdf", "-o", "out"], env0, fs0, .ok (), .ok [p1, p2], okPut, okWrite, d0⟩

def w1 : World :=
  ⟨["-i", "in.pdf", "-o", "out"], env2, fs0, .ok (), .ok [p1, p2], okPut, okWrite, d0⟩

def wPos : World :=
  ⟨["input.pdf"], env0, fs0, .ok (), .ok [], okPut, okWrite, d0⟩

-- ## Helper lemmas

theorem jsTruthy_eq_some {o : Option String} (h : jsTruthy o = true) :
    o = some (o.getD "") := by
  cases o with
  | none => simp [jsTruthy] at h
  | some s => rfl

theorem jsTruthy_getD_ne {o : Option String} (h : jsTruthy o = true) :
    o.getD "" ≠ "" := by
  cases o with
  | none => simp [jsTruthy] at h
  | some s => simpa [jsTruthy] using h

theorem jsTruthy_some_iff {s : String} : jsTruthy (some s) = true ↔ s ≠ "" := by
  simp [jsTruthy]

theorem dropLit_append (lit cs : List Char) : dropLit lit (lit ++ cs) = some cs := by
  induction lit with
  | nil => rfl
  | cons p ps ih => simp [dropLit, ih]

theorem takeWhile_all_append {p : Char → Bool} {l : List Char} (c : Char)
    (t : List Char) (hl : ∀ x ∈ l, p x = true) (hc : p c = false) :
    (l ++ c :: t).takeWhile p = l ∧ (l ++ c :: t).dropWhile p = c :: t := by
  induction l with
  | nil => simp [List.takeWhile, List.dropWhile, hc]
  | cons a l ih =>
    have ha : p a = true := hl a (by simp)
    have ih' := ih (fun x hx => hl x (by simp [hx]))
    simp [List.takeWhile, List.dropWhile, ha, ih'.1, ih'.2]

theorem stripDataUrl_match (w b : List Char) (hw : w ≠ [])
    (hwc : ∀ c ∈ w, isWordChar c = true) :
    stripDataUrl ("data:image/".data ++ (w ++ (";base64,".data ++ b))) = b := by
  have hsc : isWordChar ';' = false := by decide
  have htw := takeWhile_all_append (p := isWordChar) (l := w)
    ';' ("base64,".data ++ b) hwc hsc
  have hassoc : ";base64,".data ++ b = ';' :: ("base64,".data ++ b) := rfl
  have hne : ¬ (w.isEmpty = true) := by
    cases w with
    | nil => exact absurd rfl hw
    | cons a l => simp
  unfold stripDataUrl
  rw [dropLit_append]
  change (if ((w ++ (";base64,".data ++ b)).takeWhile isWordChar).isEmpty = true then
      "data:image/".data ++ (w ++ (";base64,".data ++ b))
    else
      match dropLit ";base64,".data
          ((w ++ (";base64,".data ++ b)).dropWhile isWordChar) with
      | none => "data:image/".data ++ (w ++ (";base64,".data ++ b))
      | some rest2 => rest2) = b
  rw [hassoc, htw.1, htw.2, if_neg hne, ← hassoc, dropLit_append]

theorem processPayload_data_url (w b64 : String) (hw : w ≠ "")
    (hwc : ∀ c ∈ w.data, isWordChar c = true)
    (hws : ∀ c ∈ b64.data, jsIsSpace c = false) :
    processPayload ("data:image/" ++ w ++ ";base64," ++ b64) = b64 := by
  have hwd : w.data ≠ [] := by
    intro h
    apply hw
    apply String.ext
    simpa using h
  unfold processPayload
  have hdata : ("data:image/" ++ w ++ ";base64," ++ b64).data
      = "data:image/".data ++ (w.data ++ (";base64,".data ++ b64.data)) := by
    simp [String.data_append]
  rw [hdata, stripDataUrl_match w.data b64.data hwd hwc]
  have : b64.data.filter (fun c => !(jsIsSpace c)) = b64.data := by
    apply List.filter_eq_self.mpr
    intro a ha
    simp [hws a ha]
  rw [this]

theorem filter_pairwise_single {α : Type} (f : α → String) :
    ∀ (l : List α) (x : α), l.Pairwise (fun a b => f a ≠ f b) → x ∈ l →
      l.filter (fun a => f a == f x) = [x]
  | [], x, _, hx => absurd hx (List.not_mem_nil x)
  | a :: t, x, hpw, hx => by
    have ha := (List.pairwise_cons.mp hpw).1
    have hpt := (List.pairwise_cons.mp hpw).2
    rcases List.mem_cons.mp hx with rfl | hxt
    · have : t.filter (fun b => f b == f x) = [] := by
        apply List.filter_eq_nil_iff.mpr
        intro b hb
        simp only [beq_iff_eq]
        exact fun hfe => (ha b hb) hfe.symm
      simp [List.filter, this]
    · have hne : f a ≠ f x := ha x hxt
      have : (f a == f x) = false := by simpa using hne
      simp [List.filter, this, filter_pairwise_single f t x hpt hxt]

theorem find?_of_filter_single {α : Type} {l : List α} {p : α → Bool} {x : α}
    (h : l.filter p = [x]) : l.find? p = some x := by
  induction l with
  | nil => simp at h
  | cons a t ih =>
    by_cases hp : p a = true
    · rw [List.filter_cons_of_pos hp] at h
      have hax : a = x := (List.cons_eq_cons.mp h).1
      subst hax
      exact List.find?_cons_of_pos _ hp
    · have hp' : p a = false := by simpa using hp
      rw [List.filter_cons_of_neg (by simp [hp'])] at h
      rw [List.find?_cons_of_neg _ (by simp [hp'])]
      exact ih h

theorem find?_of_filter_nil {α : Type} {l : List α} {p : α → Bool}
    (h : l.filter p = []) : l.find? p = none := by
  induction l with
  | nil => rfl
  | cons a t ih =>
    by_cases hp : p a = true
    · rw [List.filter_cons_of_pos hp] at h
      simp at h
    · have hp' : p a = false := by simpa using hp
      rw [List.filter_cons_of_neg (by simp [hp'])] at h
      rw [List.find?_cons_of_neg _ (by simp [hp'])]
      exact ih h

theorem pairwise_id_inj {α : Type} (f : α → String) :
    ∀ (l : List α), l.Pairwise (fun a b => f a ≠ f b) →
      ∀ x ∈ l, ∀ y ∈ l, f x = f y → x = y
  | [], _, x, hx, _, _, _ => absurd hx (List.not_mem_nil x)
  | a :: t, hpw, x, hx, y, hy, hfe => by
    have ha := (List.pairwise_cons.mp hpw).1
    have hpt := (List.pairwise_cons.mp hpw).2
    rcases List.mem_cons.mp hx with rfl | hxt
    · rcases List.mem_cons.mp hy with rfl | hyt
      · rfl
      · exact absurd hfe (ha y hyt)
    · rcases List.mem_cons.mp hy with rfl | hyt
      · exact absurd hfe.symm (ha x hxt)
      · exact pairwise_id_inj f t hpt x hxt y hyt hfe

theorem concatMap_append {α β : Type} (f : α → List β) :
    ∀ (l₁ l₂ : List α), concatMap f (l₁ ++ l₂) = concatMap f l₁ ++ concatMap f l₂
  | [], _ => rfl
  | a :: l, l₂ => by simp [concatMap, concatMap_append f l l₂]

theorem imageLines_eq_concatMap (m : ImageMap) :
    ∀ l : List EmbeddedImage, imageLines m l = concatMap (imageRef m) l
  | [] => rfl
  | img :: rest => by
    unfold imageLines concatMap imageRef
    cases m.find? (fun u => u.id == img.id) with
    | none => simpa using imageLines_eq_concatMap m rest
    | some u => simpa using imageLines_eq_concatMap m rest

theorem joinNL_cons (x : String) {ys : List String} (h : ys ≠ []) :
    joinNL (x :: ys) = x ++ "\n" ++ joinNL ys := by
  cases ys with
  | nil => exact absurd rfl h
  | cons y t => rfl

theorem joinSep_cons (sep x : String) {ys : List String} (h : ys ≠ []) :
    joinSep sep (x :: ys) = x ++ sep ++ joinSep sep ys := by
  cases ys with
  | nil => exact absurd rfl h
  | cons y t => rfl

theorem joinNL_append {xs ys : List String} (hx : xs ≠ []) (hy : ys ≠ []) :
    joinNL (xs ++ ys) = joinNL xs ++ "\n" ++ joinNL ys := by
  induction xs with
  | nil => exact absurd rfl hx
  | cons x xs ih =>
    cases xs with
    | nil =>
      simp only [List.singleton_append]
      rw [joinNL_cons x hy]
      rfl
    | cons x' xs' =>
      have hne : x' :: xs' ≠ [] := by simp
      have hne2 : (x' :: xs') ++ ys ≠ [] := by simp
      rw [List.cons_append, joinNL_cons x hne2, ih hne, joinNL_cons x hne]
      simp [String.append_assoc]

theorem pageLines_ne_nil (m : ImageMap) (o : OCRPageObject) :
    pageLines m o ≠ [] := by
  simp [pageLines]

-- Dropping the images without inline bytes changes nothing about an
-- uploadImages run: same PUT trace, same outcome.
theorem uploadImagesGo_filter (put : PutRequest → Except String Unit)
    (bN pU ymd : String) :
    ∀ (images : List EmbeddedImage) (acc : ImageMap) (tr : List PutRequest),
      uploadImagesGo put bN pU ymd images acc tr
        = uploadImagesGo put bN pU ymd
            (images.filter (fun i => jsTruthy i.imageBase64)) acc tr
  | [], _, _ => rfl
  | img :: rest, acc, tr => by
    by_cases h : jsTruthy img.imageBase64 = true
    · simp only [List.filter_cons, h, if_true]
      unfold uploadImagesGo
      rw [if_pos h, if_pos h]
      split
      · rfl
      · dsimp only
        split
        · rfl
        · exact uploadImagesGo_filter put bN pU ymd rest _ _
    · have h' : jsTruthy img.imageBase64 = false := by simpa using h
      simp only [List.filter_cons, h', Bool.false_eq_true, if_false]
      conv_lhs => unfold uploadImagesGo
      rw [if_neg (by simp [h'])]
      exact uploadImagesGo_filter put bN pU ymd rest _ _

-- On success, the mapping appended by the loop is exactly one entry per
-- image with inline bytes, in encounter order.
theorem uploadImagesGo_ok_map (put : PutRequest → Except String Unit)
    (bN pU ymd : String) :
    ∀ (images : List EmbeddedImage) (acc : ImageMap) (tr tr' : List PutRequest)
      (m : ImageMap),
      uploadImagesGo put bN pU ymd images acc tr = (tr', .ok m) →
      m = acc ++ (images.filter (fun i => jsTruthy i.imageBase64)).map (mkEntry pU ymd)
  | [], acc, tr, tr', m, h => by
    unfold uploadImagesGo at h
    simp only [Prod.mk.injEq, Except.ok.injEq] at h
    rw [List.filter_nil, List.map_nil, List.append_nil, ← h.2]
  | img :: rest, acc, tr, tr', m, h => by
    by_cases hb : jsTruthy img.imageBase64 = true
    · simp only [List.filter_cons, hb, if_true, List.map_cons]
      unfold uploadImagesGo at h
      rw [if_pos hb] at h
      split at h
      · simp at h
      · dsimp only at h
        split at h
        · simp at h
        · have := uploadImagesGo_ok_map put bN pU ymd rest
            (acc ++ [mkEntry pU ymd img]) _ _ _ h
          rw [this]
          simp [List.append_assoc]
    · have hb' : jsTruthy img.imageBase64 = false := by simpa using hb
      simp only [List.filter_cons, hb', Bool.false_eq_true, if_false]
      unfold uploadImagesGo at h
      rw [if_neg (by simp [hb'])] at h
      exact uploadImagesGo_ok_map put bN pU ymd rest acc _ _ _ h

-- Every PUT request recorded by the loop carries a key derived from the
-- single ymd string and the id of one of the processed images.
theorem uploadImagesGo_trace (put : PutRequest → Except String Unit)
    (bN pU ymd : String) :
    ∀ (images : List EmbeddedImage) (acc : ImageMap) (tr : List PutRequest)
      (req : PutRequest),
      req ∈ (uploadImagesGo put bN pU ymd images acc tr).1 →
      req ∈ tr ∨ ∃ img ∈ images, ∃ body,
        req = ⟨bN, "paper/" ++ ymd ++ "/" ++ img.id ++ ".png", body,
               "image/png", "public-read"⟩
  | [], acc, tr, req, h => by
    unfold uploadImagesGo at h
    exact Or.inl h
  | img :: rest, acc, tr, req, h => by
    by_cases hb : jsTruthy img.imageBase64 = true
    · unfold uploadImagesGo at h
      rw [if_pos hb] at h
      split at h
      · exact Or.inl h
      · next body heq =>
        dsimp only at h
        split at h
        · next e heq2 =>
          dsimp only at h
          rcases List.mem_append.mp h with h' | h'
          · exact Or.inl h'
          · refine Or.inr ⟨img, by simp, body, ?_⟩
            simpa using h'
        · next u heq2 =>
          rcases uploadImagesGo_trace put bN pU ymd rest _ _ req h with h' | h'
          · rcases List.mem_append.mp h' with h'' | h''
            · exact Or.inl h''
            · refine Or.inr ⟨img, by simp, body, ?_⟩
              simpa using h''
          · rcases h' with ⟨i, hi, bd, hr⟩
            exact Or.inr ⟨i, by simp [hi], bd, hr⟩
    · have hb' : jsTruthy img.imageBase64 = false := by simpa using hb
      unfold uploadImagesGo at h
      rw [if_neg (by simp [hb'])] at h
      rcases uploadImagesGo_trace put bN pU ymd rest _ _ req h with h' | h'
      · exact Or.inl h'
      · rcases h' with ⟨i, hi, bd, hr⟩
        exact Or.inr ⟨i, by simp [hi], bd, hr⟩

-- A successful uploadImages call exposes a successful loop run.
theorem uploadImages_ok (put : PutRequest → Except String Unit)
    (bN pU : String) (today : JSDate) (images : List EmbeddedImage)
    (m : ImageMap)
    (h : (uploadImages put bN pU today images).2 = .ok m) :
    m = (images.filter (fun i => jsTruthy i.imageBase64)).map
          (mkEntry pU (ymdString today)) := by
  unfold uploadImages at h
  split at h
  · simp at h
  · next tr m' heq =>
    simp only [Except.ok.injEq] at h
    subst h
    simpa using uploadImagesGo_ok_map put bN pU (ymdString today) images [] [] tr m' heq

-- With every write succeeding, generateMarkdownGo writes one file per page
-- and accumulates all page lines with a blank separator.
theorem gmGo_ok (m : ImageMap) (outDir : String) :
    ∀ (objects : List OCRPageObject) (combined : List String)
      (tr : List WrittenFile),
      generateMarkdownGo okWrite m outDir objects combined tr
        = (tr ++ objects.map (pageWrite m outDir),
           .ok (combined ++ concatMap (fun o => pageLines m o ++ [""]) objects))
  | [], combined, tr => by simp [generateMarkdownGo, concatMap]
  | o :: rest, combined, tr => by
    show generateMarkdownGo okWrite m outDir (o :: rest) combined tr = _
    unfold generateMarkdownGo
    show generateMarkdownGo okWrite m outDir rest
        (combined ++ (pageLines m o ++ [""])) (tr ++ [pageWrite m outDir o]) = _
    rw [gmGo_ok m outDir rest (combined ++ (pageLines m o ++ [""]))
      (tr ++ [pageWrite m outDir o])]
    simp [concatMap, List.append_assoc]

theorem generateMarkdown_okWrite (m : ImageMap) (outDir : String)
    (objects : List OCRPageObject) :
    generateMarkdown okWrite m outDir objects
      = (objects.map (pageWrite m outDir) ++
          [⟨joinP outDir "all-pages.md",
            joinNL (concatMap (fun o => pageLines m o ++ [""]) objects)⟩],
         .ok ()) := by
  unfold generateMarkdown
  rw [gmGo_ok m outDir objects [] []]
  simp [okWrite]

-- String algebra: the shape produced by splitting a page block off the
-- combined buffer equals the separator form.
theorem append_nl_nl (C J : String) :
    C ++ "\n" ++ joinNL [""] ++ "\n" ++ (J ++ "\n") = C ++ "\n\n" ++ J ++ "\n" := by
  rw [show joinNL ([""] : List String) = "" from rfl, String.append_empty]
  simp only [String.append_assoc]
  rw [← String.append_assoc "\n" "\n" (J ++ "\n")]
  rfl

-- The combined buffer joins to the page contents separated by blank lines,
-- with one trailing newline.
theorem joinNL_combined (m : ImageMap) :
    ∀ (objects : List OCRPageObject), objects ≠ [] →
      joinNL (concatMap (fun o => pageLines m o ++ [""]) objects)
        = joinSep "\n\n" (objects.map (pageContent m)) ++ "\n"
  | [], h => absurd rfl h
  | [o], _ => by
    have h0 : concatMap (fun p => pageLines m p ++ [""]) [o]
        = pageLines m o ++ [""] := by
      simp [concatMap]
    rw [h0, joinNL_append (pageLines_ne_nil m o) (by simp : ([""] : List String) ≠ [])]
    rw [show joinNL ([""] : List String) = "" from rfl, String.append_empty]
    rfl
  | o :: o' :: rest, _ => by
    have hrest : (o' :: rest : List OCRPageObject) ≠ [] := by simp
    have hcm : concatMap (fun p => pageLines m p ++ [""]) (o' :: rest) ≠ [] := by
      show pageLines m o' ++ [""] ++ concatMap (fun p => pageLines m p ++ [""]) rest ≠ []
      simp
    have ih := joinNL_combined m (o' :: rest) hrest
    show joinNL ((pageLines m o ++ [""]) ++
        concatMap (fun p => pageLines m p ++ [""]) (o' :: rest)) = _
    rw [joinNL_append (by simp) hcm,
      joinNL_append (pageLines_ne_nil m o) (by simp : ([""] : List String) ≠ []),
      ih]
    simp only [List.map_cons]
    rw [joinSep_cons "\n\n" (pageContent m o) (by simp)]
    exact append_nl_nl (joinNL (pageLines m o)) _

-- The PUT trace survives the error wrapping of uploadImages unchanged.
theorem uploadImages_fst (put : PutRequest → Except String Unit)
    (bN pU : String) (today : JSDate) (images : List EmbeddedImage) :
    (uploadImages put bN pU today images).1
      = (uploadImagesGo put bN pU (ymdString today) images [] []).1 := by
  unfold uploadImages
  split
  · next tr e heq => rw [heq]
  · next tr m heq => rw [heq]

theorem classifyTok_pos (c : Char) (cs : List Char) (hc : c ≠ '-') :
    classifyTok (c :: cs) = .positional := by
  unfold classifyTok
  split <;> simp_all

-- ## Claims

/-- C1: for a successful image-publisher run over images with document-unique
ids, an image appears in the id→url mapping iff it has inline base64 bytes;
with bytes it appears exactly once, with url
`<publicBaseUrl>/paper/<date>/<id>.png`, and the Markdown reference emitted
for it uses exactly that url; without bytes it contributes no mapping entry,
no Markdown reference, and no error (the run is unchanged by dropping it). -/
theorem C1_image_mapping (put : PutRequest → Except String Unit)
    (bN pU : String) (today : JSDate) (images : List EmbeddedImage)
    (hids : images.Pairwise (fun a b => a.id ≠ b.id)) (m : ImageMap)
    (hok : (uploadImages put bN pU today images).2 = .ok m) :
    (∀ img ∈ images, (∃ u ∈ m, u.id = img.id) ↔ jsTruthy img.imageBase64 = true) ∧
    (∀ img ∈ images, jsTruthy img.imageBase64 = true →
      m.filter (fun u => u.id == img.id)
          = [⟨img.id, pU ++ "/" ++ ("paper/" ++ ymdString today ++ "/" ++ img.id ++ ".png")⟩]
        ∧ imageRef m img
          = ["![" ++ img.id ++ "](" ++
              (pU ++ "/" ++ ("paper/" ++ ymdString today ++ "/" ++ img.id ++ ".png")) ++ ")",
             ""]) ∧
    (∀ img ∈ images, jsTruthy img.imageBase64 = false →
      (∀ u ∈ m, u.id ≠ img.id) ∧ imageRef m img = []) ∧
    uploadImages put bN pU today images
      = uploadImages put bN pU today (images.filter (fun i => jsTruthy i.imageBase64)) ∧
    imageLines m images = concatMap (imageRef m) images := by
  have hm : m = (images.filter (fun i => jsTruthy i.imageBase64)).map
      (mkEntry pU (ymdString today)) :=
    uploadImages_ok put bN pU today images m hok
  have hpwf : (images.filter (fun i => jsTruthy i.imageBase64)).Pairwise
      (fun a b => a.id ≠ b.id) :=
    List.Pairwise.sublist (List.filter_sublist images) hids
  have hmemfl : ∀ img ∈ images, jsTruthy img.imageBase64 = true →
      img ∈ images.filter (fun i => jsTruthy i.imageBase64) := by
    intro img h ht
    exact List.mem_filter.mpr ⟨h, ht⟩
  have hflmem : ∀ y ∈ images.filter (fun i => jsTruthy i.imageBase64),
      y ∈ images ∧ jsTruthy y.imageBase64 = true := by
    intro y hy
    exact ⟨(List.mem_filter.mp hy).1, (List.mem_filter.mp hy).2⟩
  have hfilter : ∀ img ∈ images, jsTruthy img.imageBase64 = true →
      m.filter (fun u => u.id == img.id)
        = [mkEntry pU (ymdString today) img] := by
    intro img h ht
    have hpwm : ((images.filter (fun i => jsTruthy i.imageBase64)).map
        (mkEntry pU (ymdString today))).Pairwise
        (fun a b => a.id ≠ b.id) := by
      refine List.Pairwise.map _ ?_ hpwf
      intro a b hab
      exact hab
    have := filter_pairwise_single PublishedImage.id
      ((images.filter (fun i => jsTruthy i.imageBase64)).map
        (mkEntry pU (ymdString today)))
      (mkEntry pU (ymdString today) img) hpwm
      (List.mem_map_of_mem _ (hmemfl img h ht))
    rw [hm]
    exact this
  have hnone : ∀ img ∈ images, jsTruthy img.imageBase64 = false →
      ∀ u ∈ m, u.id ≠ img.id := by
    intro img h hf u hu heq
    rw [hm] at hu
    obtain ⟨y, hy, rfl⟩ := List.mem_map.mp hu
    have hyi := hflmem y hy
    have : y = img :=
      pairwise_id_inj EmbeddedImage.id images hids y hyi.1 img h heq
    rw [this] at hyi
    rw [hyi.2] at hf
    exact Bool.true_eq_false.mp hf
  refine ⟨?_, ?_, ?_, ?_, imageLines_eq_concatMap m images⟩
  · intro img h
    constructor
    · rintro ⟨u, hu, hid⟩
      by_contra hnb
      have hf : jsTruthy img.imageBase64 = false := by
        simpa using hnb
      exact hnone img h hf u hu hid
    · intro ht
      refine ⟨mkEntry pU (ymdString today) img, ?_, rfl⟩
      rw [hm]
      exact List.mem_map_of_mem _ (hmemfl img h ht)
  · intro img h ht
    have hfind : m.find? (fun u => u.id == img.id)
        = some (mkEntry pU (ymdString today) img) :=
      find?_of_filter_single (hfilter img h ht)
    constructor
    · exact hfilter img h ht
    · simp only [imageRef, hfind]
      rfl
  · intro img h hf
    refine ⟨hnone img h hf, ?_⟩
    have hnil : m.filter (fun u => u.id == img.id) = [] := by
      apply List.filter_eq_nil_iff.mpr
      intro u hu
      simpa using hnone img h hf u hu
    have hfind : m.find? (fun u => u.id == img.id) = none :=
      find?_of_filter_nil hnil
    simp only [imageRef, hfind]
  · unfold uploadImages
    rw [uploadImagesGo_filter put bN pU (ymdString today) images [] []]

/-- C1 witness: the claim evaluated on a two-image list, one image with
inline bytes and one without. -/
theorem C1_witness :
    ([imgA, imgB].Pairwise (fun a b => a.id ≠ b.id)) ∧
    ((uploadImages okPut "bkt" "https://pub" d0 [imgA, imgB]).2 = .ok m0) ∧
    ((∀ img ∈ [imgA, imgB],
        (∃ u ∈ m0, u.id = img.id) ↔ jsTruthy img.imageBase64 = true) ∧
     (∀ img ∈ [imgA, imgB], jsTruthy img.imageBase64 = true →
       m0.filter (fun u => u.id == img.id)
           = [⟨img.id, "https://pub" ++ "/" ++
                ("paper/" ++ ymdString d0 ++ "/" ++ img.id ++ ".png")⟩]
         ∧ imageRef m0 img
           = ["![" ++ img.id ++ "](" ++
               ("https://pub" ++ "/" ++
                ("paper/" ++ ymdString d0 ++ "/" ++ img.id ++ ".png")) ++ ")",
              ""]) ∧
     (∀ img ∈ [imgA, imgB], jsTruthy img.imageBase64 = false →
       (∀ u ∈ m0, u.id ≠ img.id) ∧ imageRef m0 img = []) ∧
     uploadImages okPut "bkt" "https://pub" d0 [imgA, imgB]
       = uploadImages okPut "bkt" "https://pub" d0
           ([imgA, imgB].filter (fun i => jsTruthy i.imageBase64)) ∧
     imageLines m0 [imgA, imgB] = concatMap (imageRef m0) [imgA, imgB]) := by
  have h1 : [imgA, imgB].Pairwise (fun a b => a.id ≠ b.id) := by decide
  have h2 : (uploadImages okPut "bkt" "https://pub" d0 [imgA, imgB]).2 = .ok m0 := by rfl
  exact ⟨h1, h2, C1_image_mapping okPut "bkt" "https://pub" d0 [imgA, imgB] h1 m0 h2⟩

/-- C2: for pages whose zero-based indices enumerate their positions, the
assembler (with every write succeeding) writes exactly one `page-<N>.md`
per page plus `all-pages.md`; the page file paths are `page-1.md` …
`page-<n>.md` in order, and all-pages.md holds the page contents joined in
order with a blank-line separator (and a trailing newline). -/
theorem C2_markdown_files (m : ImageMap) (outDir : String)
    (objects : List OCRPageObject)
    (hidx : objects.map (fun o => o.index) = List.range objects.length) :
    (generateMarkdown okWrite m outDir objects).2 = .ok () ∧
    (generateMarkdown okWrite m outDir objects).1
      = objects.map (pageWrite m outDir) ++
        [⟨joinP outDir "all-pages.md",
          joinNL (concatMap (fun o => pageLines m o ++ [""]) objects)⟩] ∧
    (generateMarkdown okWrite m outDir objects).1.length = objects.length + 1 ∧
    (objects.map (pageWrite m outDir)).map (fun f => f.path)
      = (List.range objects.length).map
          (fun k => joinP outDir ("page-" ++ toString (k + 1) ++ ".md")) ∧
    (objects ≠ [] →
      joinNL (concatMap (fun o => pageLines m o ++ [""]) objects)
        = joinSep "\n\n" (objects.map (pageContent m)) ++ "\n") ∧
    (objects = [] →
      joinNL (concatMap (fun o => pageLines m o ++ [""]) objects) = "") := by
  have hgm := generateMarkdown_okWrite m outDir objects
  refine ⟨?_, ?_, ?_, ?_, joinNL_combined m objects, ?_⟩
  · rw [hgm]
  · rw [hgm]
  · rw [hgm]
    simp
  · rw [List.map_map,
      show ((fun f => f.path) ∘ pageWrite m outDir)
        = (fun k => joinP outDir ("page-" ++ toString (k + 1) ++ ".md"))
            ∘ (fun o => o.index) from rfl,
      ← List.map_map, hidx]
  · intro h
    subst h
    rfl

/-- C2 witness: the claim evaluated on a two-page sequence. -/
theorem C2_witness :
    ([p1, p2].map (fun o => o.index) = List.range ([p1, p2] : List OCRPageObject).length) ∧
    ((generateMarkdown okWrite m0 "out" [p1, p2]).2 = .ok () ∧
     (generateMarkdown okWrite m0 "out" [p1, p2]).1
       = [p1, p2].map (pageWrite m0 "out") ++
         [⟨joinP "out" "all-pages.md",
           joinNL (concatMap (fun o => pageLines m0 o ++ [""]) [p1, p2])⟩] ∧
     (generateMarkdown okWrite m0 "out" [p1, p2]).1.length
       = ([p1, p2] : List OCRPageObject).length + 1 ∧
     ([p1, p2].map (pageWrite m0 "out")).map (fun f => f.path)
       = (List.range ([p1, p2] : List OCRPageObject).length).map
           (fun k => joinP "out" ("page-" ++ toString (k + 1) ++ ".md")) ∧
     (([p1, p2] : List OCRPageObject) ≠ [] →
       joinNL (concatMap (fun o => pageLines m0 o ++ [""]) [p1, p2])
         = joinSep "\n\n" ([p1, p2].map (pageContent m0)) ++ "\n") ∧
     (([p1, p2] : List OCRPageObject) = [] →
       joinNL (concatMap (fun o => pageLines m0 o ++ [""]) [p1, p2]) = "")) := by
  have h1 : [p1, p2].map (fun o => o.index)
      = List.range ([p1, p2] : List OCRPageObject).length := by decide
  exact ⟨h1, C2_markdown_files m0 "out" [p1, p2] h1⟩

/-- C3 counterexample: for a one-page document with no images, the content
written to page-1.md is `# Page 1\n\nHello\n` — it contains blank lines
between the heading, the OCR text, and after the text, so it is not the
plain newline-join of the heading, the text, and the image references that
the claim describes. -/
theorem C3_counterexample :
    (generateMarkdown okWrite [] "out" [p0]).1
      = [⟨"out/page-1.md", "# Page 1\n\nHello\n"⟩,
         ⟨"out/all-pages.md", "# Page 1\n\nHello\n\n"⟩] ∧
    "# Page 1\n\nHello\n" ≠ joinNL ["# Page 1", "Hello"] := by
  exact ⟨rfl, by decide⟩

/-- C3 (amended): the content written for a page is, joined with `\n`: the
level-1 heading `# Page <index+1>`, a blank line, the OCR markdown verbatim,
a blank line, and then for each embedded image of the page in original
order whose id is found in the mapping, the reference `![<id>](<url>)`
followed by a blank line; images whose id is absent are silently omitted. -/
theorem C3_page_content (m : ImageMap) (outDir : String)
    (objects : List OCRPageObject) (o : OCRPageObject) (ho : o ∈ objects) :
    pageWrite m outDir o ∈ (generateMarkdown okWrite m outDir objects).1 ∧
    pageWrite m outDir o
      = ⟨joinP outDir ("page-" ++ toString (o.index + 1) ++ ".md"),
         joinNL (["# Page " ++ toString (o.index + 1), "", o.markdown, ""]
            ++ concatMap (imageRef m) o.images)⟩ ∧
    (∀ img ∈ o.images, m.find? (fun u => u.id == img.id) = none →
      imageRef m img = []) ∧
    (∀ img ∈ o.images, ∀ u, m.find? (fun u => u.id == img.id) = some u →
      imageRef m img = ["![" ++ img.id ++ "](" ++ u.url ++ ")", ""]) := by
  refine ⟨?_, ?_, ?_, ?_⟩
  · rw [generateMarkdown_okWrite]
    exact List.mem_append_left _ (List.mem_map_of_mem _ ho)
  · show pageWrite m outDir o = _
    unfold pageWrite pageContent pageLines
    rw [imageLines_eq_concatMap]
  · intro img _ hf
    simp only [imageRef, hf]
  · intro img _ u hu
    simp only [imageRef, hu]

/-- C3 witness: the amended claim evaluated on a concrete page with one
mapped image and one unmapped image. -/
theorem C3_witness :
    (p1 ∈ ([p1, p2] : List OCRPageObject)) ∧
    (pageWrite m0 "out" p1 ∈ (generateMarkdown okWrite m0 "out" [p1, p2]).1 ∧
     pageWrite m0 "out" p1
       = ⟨joinP "out" ("page-" ++ toString (p1.index + 1) ++ ".md"),
          joinNL (["# Page " ++ toString (p1.index + 1), "", p1.markdown, ""]
             ++ concatMap (imageRef m0) p1.images)⟩ ∧
     (∀ img ∈ p1.images, m0.find? (fun u => u.id == img.id) = none →
       imageRef m0 img = []) ∧
     (∀ img ∈ p1.images, ∀ u, m0.find? (fun u => u.id == img.id) = some u →
       imageRef m0 img = ["![" ++ img.id ++ "](" ++ u.url ++ ")", ""])) := by
  have h1 : p1 ∈ ([p1, p2] : List OCRPageObject) := by simp
  exact ⟨h1, C3_page_content m0 "out" [p1, p2] p1 h1⟩

/-- C4: the orchestrator runs validate-CLI, load-configuration, ensure-dir,
OCR, publish-images, assemble-Markdown in that fixed order; a stage runs
only if all prior stages succeeded, a failing stage's error value is
returned unchanged and no later stage runs, the error is printed and the
process exits 1, and a fully successful run exits 0. -/
theorem C4_orchestration (w : World) :
    (∀ pe, getCliArgs w.argv w.fs = .thrown pe →
      main w = (⟨[Stage.cli], [], []⟩, .uncaught pe) ∧
      runProgram w = ⟨1, .thrownErr pe⟩) ∧
    (∀ e, getCliArgs w.argv w.fs = .errR e →
      main w = (⟨[Stage.cli], [], []⟩, .failure e) ∧
      runProgram w = ⟨1, .appErr e⟩) ∧
    (∀ inp od e, getCliArgs w.argv w.fs = .okA inp od →
      getEnvs w.env = .error e →
      main w = (⟨[Stage.cli, Stage.env], [], []⟩, .failure e) ∧
      runProgram w = ⟨1, .appErr e⟩) ∧
    (∀ inp od envs c, getCliArgs w.argv w.fs = .okA inp od →
      getEnvs w.env = .ok envs → w.ensureDirR = .error c →
      main w = (⟨[Stage.cli, Stage.env, Stage.dir], [], []⟩,
                .failure (.system "ディレクトリの作成に失敗しました")) ∧
      runProgram w = ⟨1, .appErr (.system "ディレクトリの作成に失敗しました")⟩) ∧
    (∀ inp od envs c, getCliArgs w.argv w.fs = .okA inp od →
      getEnvs w.env = .ok envs → w.ensureDirR = .ok () → w.ocrR = .error c →
      main w = (⟨[Stage.cli, Stage.env, Stage.dir, Stage.ocr], [], []⟩,
                .failure (.system "OCR 処理に失敗しました")) ∧
      runProgram w = ⟨1, .appErr (.system "OCR 処理に失敗しました")⟩) ∧
    (∀ inp od envs pages tr e, getCliArgs w.argv w.fs = .okA inp od →
      getEnvs w.env = .ok envs → w.ensureDirR = .ok () → w.ocrR = .ok pages →
      uploadImages w.put envs.R2_BUCKET_NAME envs.R2_PUBLIC_URL w.today
          (concatMap (fun o => o.images) pages) = (tr, .error e) →
      main w = (⟨[Stage.cli, Stage.env, Stage.dir, Stage.ocr, Stage.upload],
                 tr, []⟩, .failure e) ∧
      runProgram w = ⟨1, .appErr e⟩) ∧
    (∀ inp od envs pages tr imap wr e, getCliArgs w.argv w.fs = .okA inp od →
      getEnvs w.env = .ok envs → w.ensureDirR = .ok () → w.ocrR = .ok pages →
      uploadImages w.put envs.R2_BUCKET_NAME envs.R2_PUBLIC_URL w.today
          (concatMap (fun o => o.images) pages) = (tr, .ok imap) →
      generateMarkdown w.write imap od pages = (wr, .error e) →
      main w = (⟨[Stage.cli, Stage.env, Stage.dir, Stage.ocr, Stage.upload,
                  Stage.md], tr, wr⟩, .failure e) ∧
      runProgram w = ⟨1, .appErr e⟩) ∧
    (∀ inp od envs pages tr imap wr, getCliArgs w.argv w.fs = .okA inp od →
      getEnvs w.env = .ok envs → w.ensureDirR = .ok () → w.ocrR = .ok pages →
      uploadImages w.put envs.R2_BUCKET_NAME envs.R2_PUBLIC_URL w.today
          (concatMap (fun o => o.images) pages) = (tr, .ok imap) →
      generateMarkdown w.write imap od pages = (wr, .ok ()) →
      main w = (⟨[Stage.cli, Stage.env, Stage.dir, Stage.ocr, Stage.upload,
                  Stage.md], tr, wr⟩, .success) ∧
      runProgram w = ⟨0, .nothing⟩) := by
  refine ⟨?_, ?_, ?_, ?_, ?_, ?_, ?_, ?_⟩
  · intro pe h
    constructor
    · simp [main, h]
    · simp [runProgram, main, h, exitOf]
  · intro e h
    constructor
    · simp [main, h]
    · simp [runProgram, main, h, exitOf]
  · intro inp od e h he
    constructor
    · simp [main, h, he]
    · simp [runProgram, main, h, he, exitOf]
  · intro inp od envs c h he hd
    constructor
    · simp [main, h, he, hd, ensureDirStage]
    · simp [runProgram, main, h, he, hd, ensureDirStage, exitOf]
  · intro inp od envs c h he hd ho
    constructor
    · simp [main, h, he, hd, ho, ensureDirStage, processOcr]
    · simp [runProgram, main, h, he, hd, ho, ensureDirStage, processOcr, exitOf]
  · intro inp od envs pages tr e h he hd ho hu
    constructor
    · simp [main, h, he, hd, ho, hu, ensureDirStage, processOcr]
    · simp [runProgram, main, h, he, hd, ho, hu, ensureDirStage, processOcr, exitOf]
  · intro inp od envs pages tr imap wr e h he hd ho hu hg
    constructor
    · simp [main, h, he, hd, ho, hu, hg, ensureDirStage, processOcr]
    · simp [runProgram, main, h, he, hd, ho, hu, hg, ensureDirStage, processOcr,
        exitOf]
  · intro inp od envs pages tr imap wr h he hd ho hu hg
    constructor
    · simp [main, h, he, hd, ho, hu, hg, ensureDirStage, processOcr]
    · simp [runProgram, main, h, he, hd, ho, hu, hg, ensureDirStage, processOcr,
        exitOf]

/-- C4 witness: a fully successful run — every stage executes in order, the
trace records one PUT and three file writes, and the process exits 0. -/
theorem C4_witness :
    (getCliArgs w0.argv w0.fs = .okA "in.pdf" "out") ∧
    (getEnvs w0.env = .ok envs0) ∧
    (w0.ensureDirR = .ok ()) ∧
    (w0.ocrR = .ok [p1, p2]) ∧
    (uploadImages w0.put envs0.R2_BUCKET_NAME envs0.R2_PUBLIC_URL w0.today
        (concatMap (fun o => o.images) [p1, p2]) = ([req0], .ok m1)) ∧
    (generateMarkdown w0.write m1 "out" [p1, p2] = (wr0, .ok ())) ∧
    (main w0 = (⟨[Stage.cli, Stage.env, Stage.dir, Stage.ocr, Stage.upload,
                  Stage.md], [req0], wr0⟩, .success) ∧
     runProgram w0 = ⟨0, .nothing⟩) := by
  have h1 : getCliArgs w0.argv w0.fs = .okA "in.pdf" "out" := by rfl
  have h2 : getEnvs w0.env = .ok envs0 := by rfl
  have h3 : w0.ensureDirR = .ok () := by rfl
  have h4 : w0.ocrR = .ok [p1, p2] := by rfl
  have h5 : uploadImages w0.put envs0.R2_BUCKET_NAME envs0.R2_PUBLIC_URL w0.today
      (concatMap (fun o => o.images) [p1, p2]) = ([req0], .ok m1) := by rfl
  have h6 : generateMarkdown w0.write m1 "out" [p1, p2] = (wr0, .ok ()) := by rfl
  exact ⟨h1, h2, h3, h4, h5, h6,
    (C4_orchestration w0).2.2.2.2.2.2.2 "in.pdf" "out" envs0 [p1, p2] [req0]
      m1 wr0 h1 h2 h3 h4 h5 h6⟩

/-- C5 counterexample: the SystemError produced for a storage-upload failure
is not a fixed string — two different underlying causes yield two different
messages, each embedding the cause after the stage prefix. -/
theorem C5_counterexample :
    (uploadImages failPut "bkt" "https://pub" d0 [imgA]).2
      = .error (.system "画像のアップロードに失敗しました: PutFail") ∧
    (uploadImages failPut2 "bkt" "https://pub" d0 [imgA]).2
      = .error (.system "画像のアップロードに失敗しました: AccessDenied") ∧
    AppError.system "画像のアップロードに失敗しました: PutFail"
      ≠ AppError.system "画像のアップロードに失敗しました: AccessDenied" := by
  exact ⟨rfl, rfl, by decide⟩

/-- C5 (amended): OCR-invocation and directory-creation failures are
reported as SystemErrors with fixed stage messages that drop the cause;
storage-upload and Markdown-file-write failures are reported as
SystemErrors whose message is a fixed stage prefix followed by the
stringified underlying cause. -/
theorem C5_error_messages :
    (∀ cause : String,
      processOcr (.error cause) = .error (.system "OCR 処理に失敗しました")) ∧
    (∀ cause : String,
      ensureDirStage (.error cause)
        = .error (.system "ディレクトリの作成に失敗しました")) ∧
    (∀ (put : PutRequest → Except String Unit) (bN pU : String) (today : JSDate)
       (images : List EmbeddedImage) (tr : List PutRequest) (cause : String),
      uploadImagesGo put bN pU (ymdString today) images [] [] = (tr, .error cause) →
      (uploadImages put bN pU today images).2
        = .error (.system ("画像のアップロードに失敗しました: " ++ cause))) ∧
    (∀ (write : WrittenFile → Except String Unit) (m : ImageMap) (outDir : String)
       (objects : List OCRPageObject) (tr : List WrittenFile) (cause : String),
      generateMarkdownGo write m outDir objects [] [] = (tr, .error cause) →
      (generateMarkdown write m outDir objects).2
        = .error (.system ("マークダウンの生成に失敗しました: " ++ cause))) ∧
    (∀ (write : WrittenFile → Except String Unit) (m : ImageMap) (outDir : String)
       (objects : List OCRPageObject) (tr : List WrittenFile)
       (combined : List String) (cause : String),
      generateMarkdownGo write m outDir objects [] [] = (tr, .ok combined) →
      write ⟨joinP outDir "all-pages.md", joinNL combined⟩ = .error cause →
      (generateMarkdown write m outDir objects).2
        = .error (.system ("マークダウンの生成に失敗しました: " ++ cause))) := by
  refine ⟨fun _ => rfl, fun _ => rfl, ?_, ?_, ?_⟩
  · intro put bN pU today images tr cause h
    simp [uploadImages, h]
  · intro write m outDir objects tr cause h
    simp [generateMarkdown, h]
  · intro write m outDir objects tr combined cause h1 h2
    simp [generateMarkdown, h1, h2]

/-- C5 witness: the amended claim evaluated at concrete failures of each of
the four stages (fixed messages for OCR and ensureDir; prefix-plus-cause for
a failing PUT, a failing page write, and a failing all-pages write). -/
theorem C5_witness :
    (processOcr (.error "boom") = .error (.system "OCR 処理に失敗しました")) ∧
    (ensureDirStage (.error "boom")
      = .error (.system "ディレクトリの作成に失敗しました")) ∧
    (uploadImagesGo failPut "bkt" "https://pub" (ymdString d0) [imgA] [] []
      = ([reqA], .error "PutFail")) ∧
    ((uploadImages failPut "bkt" "https://pub" d0 [imgA]).2
      = .error (.system ("画像のアップロードに失敗しました: " ++ "PutFail"))) ∧
    (generateMarkdownGo failWrite m0 "out" [p0] [] [] = ([], .error "WriteFail")) ∧
    ((generateMarkdown failWrite m0 "out" [p0]).2
      = .error (.system ("マークダウンの生成に失敗しました: " ++ "WriteFail"))) ∧
    (generateMarkdownGo failAllWrite m0 "out" [p0] [] []
      = ([pageWrite m0 "out" p0], .ok (pageLines m0 p0 ++ [""]))) ∧
    (failAllWrite ⟨joinP "out" "all-pages.md",
        joinNL (pageLines m0 p0 ++ [""])⟩ = .error "AllFail") ∧
    ((generateMarkdown failAllWrite m0 "out" [p0]).2
      = .error (.system ("マークダウンの生成に失敗しました: " ++ "AllFail"))) := by
  have h3 : uploadImagesGo failPut "bkt" "https://pub" (ymdString d0) [imgA] [] []
      = ([reqA], .error "PutFail") := by rfl
  have h5 : generateMarkdownGo failWrite m0 "out" [p0] [] []
      = ([], .error "WriteFail") := by rfl
  have h7 : generateMarkdownGo failAllWrite m0 "out" [p0] [] []
      = ([pageWrite m0 "out" p0], .ok (pageLines m0 p0 ++ [""])) := by rfl
  have h8 : failAllWrite ⟨joinP "out" "all-pages.md",
      joinNL (pageLines m0 p0 ++ [""])⟩ = .error "AllFail" := by rfl
  exact ⟨C5_error_messages.1 "boom", C5_error_messages.2.1 "boom", h3,
    C5_error_messages.2.2.1 failPut "bkt" "https://pub" d0 [imgA] [reqA] "PutFail" h3,
    h5,
    C5_error_messages.2.2.2.1 failWrite m0 "out" [p0] [] "WriteFail" h5,
    h7, h8,
    C5_error_messages.2.2.2.2 failAllWrite m0 "out" [p0] [pageWrite m0 "out" p0]
      (pageLines m0 p0 ++ [""]) "AllFail" h7 h8⟩

/-- C6: the configuration loader returns either all six required string
values exactly as the environment supplies them (no defaulting), or a
ValidationError naming the first missing one in the fixed check order
MISTRAL_OCR_API_KEY, R2_S3_URL, R2_ACCESS_KEY_ID, R2_SECRET_ACCESS_KEY,
R2_BUCKET_NAME, R2_PUBLIC_URL; when it fails, the OCR and upload stages
never run, so no network call is attempted. -/
theorem C6_env_loading (env : String → Option String) :
    (jsTruthy (env "MISTRAL_OCR_API_KEY") = false →
      getEnvs env = .error (.validation "MISTRAL_OCR_API_KEY が見つかりません")) ∧
    (jsTruthy (env "MISTRAL_OCR_API_KEY") = true →
     jsTruthy (env "R2_S3_URL") = false →
      getEnvs env = .error (.validation "R2_S3_URL が見つかりません")) ∧
    (jsTruthy (env "MISTRAL_OCR_API_KEY") = true →
     jsTruthy (env "R2_S3_URL") = true →
     jsTruthy (env "R2_ACCESS_KEY_ID") = false →
      getEnvs env = .error (.validation "R2_ACCESS_KEY_ID が見つかりません")) ∧
    (jsTruthy (env "MISTRAL_OCR_API_KEY") = true →
     jsTruthy (env "R2_S3_URL") = true →
     jsTruthy (env "R2_ACCESS_KEY_ID") = true →
     jsTruthy (env "R2_SECRET_ACCESS_KEY") = false →
      getEnvs env = .error (.validation "R2_SECRET_ACCESS_KEY が見つかりません")) ∧
    (jsTruthy (env "MISTRAL_OCR_API_KEY") = true →
     jsTruthy (env "R2_S3_URL") = true →
     jsTruthy (env "R2_ACCESS_KEY_ID") = true →
     jsTruthy (env "R2_SECRET_ACCESS_KEY") = true →
     jsTruthy (env "R2_BUCKET_NAME") = false →
      getEnvs env = .error (.validation "R2_BUCKET_NAME が見つかりません")) ∧
    (jsTruthy (env "MISTRAL_OCR_API_KEY") = true →
     jsTruthy (env "R2_S3_URL") = true →
     jsTruthy (env "R2_ACCESS_KEY_ID") = true →
     jsTruthy (env "R2_SECRET_ACCESS_KEY") = true →
     jsTruthy (env "R2_BUCKET_NAME") = true →
     jsTruthy (env "R2_PUBLIC_URL") = false →
      getEnvs env = .error (.validation "R2_PUBLIC_URL が見つかりません")) ∧
    (jsTruthy (env "MISTRAL_OCR_API_KEY") = true →
     jsTruthy (env "R2_S3_URL") = true →
     jsTruthy (env "R2_ACCESS_KEY_ID") = true →
     jsTruthy (env "R2_SECRET_ACCESS_KEY") = true →
     jsTruthy (env "R2_BUCKET_NAME") = true →
     jsTruthy (env "R2_PUBLIC_URL") = true →
      getEnvs env
        = .ok ⟨(env "MISTRAL_OCR_API_KEY").getD "", (env "R2_S3_URL").getD "",
               (env "R2_ACCESS_KEY_ID").getD "",
               (env "R2_SECRET_ACCESS_KEY").getD "",
               (env "R2_BUCKET_NAME").getD "", (env "R2_PUBLIC_URL").getD ""⟩ ∧
      env "MISTRAL_OCR_API_KEY" = some ((env "MISTRAL_OCR_API_KEY").getD "") ∧
      env "R2_S3_URL" = some ((env "R2_S3_URL").getD "") ∧
      env "R2_ACCESS_KEY_ID" = some ((env "R2_ACCESS_KEY_ID").getD "") ∧
      env "R2_SECRET_ACCESS_KEY" = some ((env "R2_SECRET_ACCESS_KEY").getD "") ∧
      env "R2_BUCKET_NAME" = some ((env "R2_BUCKET_NAME").getD "") ∧
      env "R2_PUBLIC_URL" = some ((env "R2_PUBLIC_URL").getD "")) ∧
    (∀ (w : World) (e : AppError), getEnvs w.env = .error e →
      Stage.ocr ∉ (main w).1.stages ∧ Stage.upload ∉ (main w).1.stages ∧
      (main w).1.puts = [] ∧ (main w).1.writes = []) := by
  refine ⟨?_, ?_, ?_, ?_, ?_, ?_, ?_, ?_⟩
  · intro h1
    simp [getEnvs, h1]
  · intro h1 h2
    simp [getEnvs, h1, h2]
  · intro h1 h2 h3
    simp [getEnvs, h1, h2, h3]
  · intro h1 h2 h3 h4
    simp [getEnvs, h1, h2, h3, h4]
  · intro h1 h2 h3 h4 h5
    simp [getEnvs, h1, h2, h3, h4, h5]
  · intro h1 h2 h3 h4 h5 h6
    simp [getEnvs, h1, h2, h3, h4, h5, h6]
  · intro h1 h2 h3 h4 h5 h6
    refine ⟨by simp [getEnvs, h1, h2, h3, h4, h5, h6], jsTruthy_eq_some h1,
      jsTruthy_eq_some h2, jsTruthy_eq_some h3, jsTruthy_eq_some h4,
      jsTruthy_eq_some h5, jsTruthy_eq_some h6⟩
  · intro w e h
    cases hcli : getCliArgs w.argv w.fs with
    | thrown pe => simp [main, hcli]
    | errR e' => simp [main, hcli]
    | okA inp od => simp [main, hcli, h]

/-- C6 witness: the loader evaluated on a complete environment (returns all
six values untouched), on an environment missing R2_S3_URL (fails naming
it), and the no-network consequence on a world whose configuration is
incomplete. -/
theorem C6_witness :
    (jsTruthy (env0 "MISTRAL_OCR_API_KEY") = true ∧
     jsTruthy (env0 "R2_PUBLIC_URL") = true ∧
     getEnvs env0 = .ok envs0 ∧
     env0 "R2_BUCKET_NAME" = some ((env0 "R2_BUCKET_NAME").getD "")) ∧
    (jsTruthy (env1 "MISTRAL_OCR_API_KEY") = true ∧
     jsTruthy (env1 "R2_S3_URL") = false ∧
     getEnvs env1 = .error (.validation "R2_S3_URL が見つかりません")) ∧
    (getEnvs w1.env = .error (.validation "MISTRAL_OCR_API_KEY が見つかりません") ∧
     Stage.ocr ∉ (main w1).1.stages ∧ Stage.upload ∉ (main w1).1.stages ∧
     (main w1).1.puts = [] ∧ (main w1).1.writes = []) := by
  have hok := (C6_env_loading env0).2.2.2.2.2.2.1 rfl rfl rfl rfl rfl rfl
  have herr := (C6_env_loading env1).2.1 rfl rfl
  have henv2 : getEnvs w1.env
      = .error (.validation "MISTRAL_OCR_API_KEY が見つかりません") :=
    (C6_env_loading w1.env).1 rfl
  have hnet := (C6_env_loading w1.env).2.2.2.2.2.2.2 w1
    (.validation "MISTRAL_OCR_API_KEY が見つかりません") henv2
  exact ⟨⟨rfl, rfl, hok.1, hok.2.2.2.2.2.1⟩, ⟨rfl, rfl, herr⟩,
    ⟨henv2, hnet.1, hnet.2.1, hnet.2.2.1, hnet.2.2.2⟩⟩

/-- C7: within one image-publisher run the date component of the storage key
is the single string computed from the run's one Date value — every PUT
request issued, however many images there are, uses a key
`paper/<that same ymd>/<id>.png` (with fixed bucket, content type and ACL). -/
theorem C7_upload_date (put : PutRequest → Except String Unit)
    (bN pU : String) (today : JSDate) (images : List EmbeddedImage)
    (req : PutRequest)
    (hreq : req ∈ (uploadImages put bN pU today images).1) :
    ∃ img ∈ images, ∃ body,
      req = ⟨bN, "paper/" ++ ymdString today ++ "/" ++ img.id ++ ".png", body,
             "image/png", "public-read"⟩ := by
  rw [uploadImages_fst] at hreq
  rcases uploadImagesGo_trace put bN pU (ymdString today) images [] [] req hreq
    with h | h
  · exact absurd h (List.not_mem_nil req)
  · exact h

/-- C7 witness: the key-shape fact evaluated on a concrete one-image run. -/
theorem C7_witness :
    (reqA ∈ (uploadImages okPut "bkt" "https://pub" d0 [imgA]).1) ∧
    (∃ img ∈ [imgA], ∃ body,
      reqA = ⟨"bkt", "paper/" ++ ymdString d0 ++ "/" ++ img.id ++ ".png", body,
              "image/png", "public-read"⟩) := by
  have h : reqA ∈ (uploadImages okPut "bkt" "https://pub" d0 [imgA]).1 := by decide
  exact ⟨h, C7_upload_date okPut "bkt" "https://pub" d0 [imgA] reqA h⟩

/-- C8: the publisher strips one anchored `data:image/<word>;base64,` marker
and then all whitespace from an inline payload and uploads the base64
decoding of what remains; in particular, for a payload that is such a
marker followed by a whitespace-free base64 string, the uploaded bytes are
the decoding of that base64 string alone. -/
theorem C8_payload (w b64 : String) (bs : List Nat) (hw : w ≠ "")
    (hwc : ∀ c ∈ w.data, isWordChar c = true)
    (hws : ∀ c ∈ b64.data, jsIsSpace c = false)
    (hdec : decodeBase64 b64 = some bs) :
    processPayload ("data:image/" ++ w ++ ";base64," ++ b64) = b64 ∧
    (∀ (put : PutRequest → Except String Unit) (bN pU id : String)
       (today : JSDate) (p : String) (bs2 : List Nat), jsTruthy (some p) = true →
      decodeBase64 (processPayload p) = some bs2 →
      (uploadImages put bN pU today [⟨id, some p, none, none, none, none⟩]).1
        = [⟨bN, "paper/" ++ ymdString today ++ "/" ++ id ++ ".png", bs2,
            "image/png", "public-read"⟩]) ∧
    (∀ (put : PutRequest → Except String Unit) (bN pU id : String)
       (today : JSDate),
      (uploadImages put bN pU today
          [⟨id, some ("data:image/" ++ w ++ ";base64," ++ b64), none, none,
            none, none⟩]).1
        = [⟨bN, "paper/" ++ ymdString today ++ "/" ++ id ++ ".png", bs,
            "image/png", "public-read"⟩]) := by
  have hproc : processPayload ("data:image/" ++ w ++ ";base64," ++ b64) = b64 :=
    processPayload_data_url w b64 hw hwc hws
  have hgen : ∀ (put : PutRequest → Except String Unit) (bN pU id : String)
      (today : JSDate) (p : String) (bs2 : List Nat), jsTruthy (some p) = true →
      decodeBase64 (processPayload p) = some bs2 →
      (uploadImages put bN pU today [⟨id, some p, none, none, none, none⟩]).1
        = [⟨bN, "paper/" ++ ymdString today ++ "/" ++ id ++ ".png", bs2,
            "image/png", "public-read"⟩] := by
    intro put bN pU id today p bs2 hp hd2
    rw [uploadImages_fst]
    unfold uploadImagesGo
    rw [if_pos hp]
    rw [show (Option.getD (some p) "") = p from rfl, hd2]
    dsimp only
    split
    · rfl
    · unfold uploadImagesGo
      rfl
  have hpay : jsTruthy (some ("data:image/" ++ w ++ ";base64," ++ b64)) = true := by
    rw [jsTruthy_some_iff]
    intro hcon
    have := congrArg String.data hcon
    simp [String.data_append] at this
  refine ⟨hproc, hgen, ?_⟩
  intro put bN pU id today
  exact hgen put bN pU id today _ bs hpay (by rw [hproc, hdec])

/-- C8 witness: the stripping and upload facts evaluated on the payload
`data:image/png;base64,QUJD`, whose base64 part decodes to the bytes
65 66 67. -/
theorem C8_witness :
    (("png" : String) ≠ "") ∧
    (∀ c ∈ ("png" : String).data, isWordChar c = true) ∧
    (∀ c ∈ ("QUJD" : String).data, jsIsSpace c = false) ∧
    (decodeBase64 "QUJD" = some [65, 66, 67]) ∧
    (processPayload ("data:image/" ++ "png" ++ ";base64," ++ "QUJD") = "QUJD" ∧
     (uploadImages okPut "bkt" "https://pub" d0
         [⟨"a", some ("data:image/" ++ "png" ++ ";base64," ++ "QUJD"), none,
           none, none, none⟩]).1
       = [⟨"bkt", "paper/" ++ ymdString d0 ++ "/" ++ "a" ++ ".png",
           [65, 66, 67], "image/png", "public-read"⟩]) := by
  have h1 : ("png" : String) ≠ "" := by decide
  have h2 : ∀ c ∈ ("png" : String).data, isWordChar c = true := by decide
  have h3 : ∀ c ∈ ("QUJD" : String).data, jsIsSpace c = false := by decide
  have h4 : decodeBase64 "QUJD" = some [65, 66, 67] := by rfl
  have h := C8_payload "png" "QUJD" [65, 66, 67] h1 h2 h3 h4
  exact ⟨h1, h2, h3, h4, h.1, h.2.2 okPut "bkt" "https://pub" "a" d0⟩

/-- C9 counterexample: a positional argument does not produce a
ValidationError — `parseArgs` throws, the rejection escapes `getCliArgs`
uncaught, and the program ends with the thrown parse error (still a nonzero
exit, but not the claimed ValidationError value). -/
theorem C9_counterexample :
    getCliArgs ["input.pdf"] fs0 = .thrown (.unexpectedPositional "input.pdf") ∧
    main wPos = (⟨[Stage.cli], [], []⟩,
                 .uncaught (.unexpectedPositional "input.pdf")) ∧
    runProgram wPos = ⟨1, .thrownErr (.unexpectedPositional "input.pdf")⟩ := by
  exact ⟨rfl, rfl, rfl⟩

/-- C9 (amended): a missing --input flag, a missing --outDir flag, a missing
or non-file input path, and a missing or non-directory output path each
yield a ValidationError naming the violated condition; a positional
argument instead makes the argument parser throw, which escapes uncaught
(exit is still nonzero); in every CLI-failure case no OCR or upload stage
runs, so the failure precedes any network call. -/
theorem C9_cli_validation (argv : List String) (fs : String → Option FileKind) :
    (∀ pe, parseArgs argv = .error pe → getCliArgs argv fs = .thrown pe) ∧
    (∀ v, parseArgs argv = .ok v → jsTruthy v.input = false →
      getCliArgs argv fs = .errR (.validation "args.input が見つかりません")) ∧
    (∀ v, parseArgs argv = .ok v → jsTruthy v.input = true →
      jsTruthy v.outDir = false →
      getCliArgs argv fs = .errR (.validation "args.outDir が見つかりません")) ∧
    (∀ v, parseArgs argv = .ok v → jsTruthy v.input = true →
      jsTruthy v.outDir = true → fs (v.input.getD "") = none →
      getCliArgs argv fs = .errR (.validation "args.input が存在しません")) ∧
    (∀ v k, parseArgs argv = .ok v → jsTruthy v.input = true →
      jsTruthy v.outDir = true → fs (v.input.getD "") = some k →
      k ≠ FileKind.file →
      getCliArgs argv fs = .errR (.validation "args.input はファイルではありません")) ∧
    (∀ v, parseArgs argv = .ok v → jsTruthy v.input = true →
      jsTruthy v.outDir = true → fs (v.input.getD "") = some FileKind.file →
      fs (v.outDir.getD "") = none →
      getCliArgs argv fs = .errR (.validation "args.outDir が存在しません")) ∧
    (∀ v k, parseArgs argv = .ok v → jsTruthy v.input = true →
      jsTruthy v.outDir = true → fs (v.input.getD "") = some FileKind.file →
      fs (v.outDir.getD "") = some k → k ≠ FileKind.directory →
      getCliArgs argv fs
        = .errR (.validation "args.outDir はディレクトリではありません")) ∧
    (∀ (tok : String) (rest : List String) (v : ParsedValues),
      (tok.data = [] ∨ ∃ c cs, tok.data = c :: cs ∧ c ≠ '-') →
      parseArgsLoop v none (tok :: rest) = .error (.unexpectedPositional tok)) ∧
    (∀ w : World,
      ((∃ pe, getCliArgs w.argv w.fs = .thrown pe) ∨
       (∃ e, getCliArgs w.argv w.fs = .errR e)) →
      Stage.ocr ∉ (main w).1.stages ∧ Stage.upload ∉ (main w).1.stages ∧
      (main w).1.puts = [] ∧ (main w).1.writes = []) := by
  refine ⟨?_, ?_, ?_, ?_, ?_, ?_, ?_, ?_, ?_⟩
  · intro pe h
    simp [getCliArgs, h]
  · intro v h hin
    simp [getCliArgs, h, hin]
  · intro v h hin hod
    simp [getCliArgs, h, hin, hod]
  · intro v h hin hod hfs
    simp [getCliArgs, h, hin, hod, hfs]
  · intro v k h hin hod hfs hk
    simp [getCliArgs, h, hin, hod, hfs, hk]
  · intro v h hin hod hfs hfo
    simp [getCliArgs, h, hin, hod, hfs, hfo]
  · intro v k h hin hod hfs hfo hk
    simp [getCliArgs, h, hin, hod, hfs, hfo, hk]
  · intro tok rest v hd
    have hcl : classifyTok tok.data = .positional := by
      rcases hd with h0 | ⟨c, cs, hdc, hc⟩
      · rw [h0]
        rfl
      · rw [hdc]
        exact classifyTok_pos c cs hc
    simp [parseArgsLoop, hcl]
  · intro w hh
    rcases hh with ⟨pe, h⟩ | ⟨e, h⟩
    · simp [main, h]
    · simp [main, h]

/-- C9 witness: the amended claim evaluated at concrete invocations — a
run with only `-i in.pdf` fails with the args.outDir ValidationError, a
bare positional token is rejected by the parser, and the CLI-failure world
reaches neither OCR nor upload. -/
theorem C9_witness :
    (parseArgs ["-i", "in.pdf"] = .ok ⟨some "in.pdf", none⟩ ∧
     jsTruthy (ParsedValues.input ⟨some "in.pdf", none⟩) = true ∧
     jsTruthy (ParsedValues.outDir ⟨some "in.pdf", none⟩) = false ∧
     getCliArgs ["-i", "in.pdf"] fs0
       = .errR (.validation "args.outDir が見つかりません")) ∧
    (("input.pdf" : String).data = 'i' :: "nput.pdf".data ∧
     parseArgsLoop ⟨none, none⟩ none ["input.pdf"]
       = .error (.unexpectedPositional "input.pdf")) ∧
    (Stage.ocr ∉ (main wPos).1.stages ∧ Stage.upload ∉ (main wPos).1.stages ∧
     (main wPos).1.puts = [] ∧ (main wPos).1.writes = []) := by
  have hp : parseArgs ["-i", "in.pdf"] = .ok ⟨some "in.pdf", none⟩ := by rfl
  have hout := (C9_cli_validation ["-i", "in.pdf"] fs0).2.2.1
    ⟨some "in.pdf", none⟩ hp rfl rfl
  have hdata : ("input.pdf" : String).data = 'i' :: "nput.pdf".data := by rfl
  have hpos := (C9_cli_validation ["input.pdf"] fs0).2.2.2.2.2.2.2.1
    "input.pdf" [] ⟨none, none⟩ (Or.inr ⟨'i', "nput.pdf".data, hdata, by decide⟩)
  have hnet := (C9_cli_validation wPos.argv wPos.fs).2.2.2.2.2.2.2.2 wPos
    (Or.inl ⟨.unexpectedPositional "input.pdf", rfl⟩)
  exact ⟨⟨hp, rfl, rfl, hout⟩, ⟨hdata, hpos⟩,
    ⟨hnet.1, hnet.2.1, hnet.2.2.1, hnet.2.2.2⟩⟩

/-- C10: a required environment variable set to the empty string behaves
exactly like an unset one — censoring empty values to "unset" leaves the
loader's result unchanged, an empty MISTRAL_OCR_API_KEY yields the same
ValidationError naming it as missing, and a successful load never hands an
empty string onward. -/
theorem C10_empty_env (env : String → Option String) :
    getEnvs env
      = getEnvs (fun k => match env k with
          | some s => if s = "" then none else some s
          | none => none) ∧
    (env "MISTRAL_OCR_API_KEY" = some "" →
      getEnvs env = .error (.validation "MISTRAL_OCR_API_KEY が見つかりません")) ∧
    (∀ e, getEnvs env = .ok e →
      e.MISTRAL_OCR_API_KEY ≠ "" ∧ e.R2_S3_URL ≠ "" ∧ e.R2_ACCESS_KEY_ID ≠ "" ∧
      e.R2_SECRET_ACCESS_KEY ≠ "" ∧ e.R2_BUCKET_NAME ≠ "" ∧
      e.R2_PUBLIC_URL ≠ "") := by
  have hto : ∀ o : Option String,
      jsTruthy (match o with
        | some s => if s = "" then none else some s
        | none => none) = jsTruthy o := by
    intro o
    cases o with
    | none => rfl
    | some s =>
      by_cases hs : s = ""
      · simp [hs, jsTruthy]
      · simp [hs, jsTruthy]
  have hgd : ∀ o : Option String, jsTruthy o = true →
      (match o with
        | some s => if s = "" then none else some s
        | none => none).getD "" = o.getD "" := by
    intro o ho
    cases o with
    | none => rfl
    | some s =>
      have hs : s ≠ "" := by simpa [jsTruthy] using ho
      simp [hs]
  refine ⟨?_, ?_, ?_⟩
  · by_cases h1 : jsTruthy (env "MISTRAL_OCR_API_KEY") = true
    case neg =>
      have h1' : jsTruthy (env "MISTRAL_OCR_API_KEY") = false := by simpa using h1
      simp [getEnvs, h1', hto]
    all_goals by_cases h2 : jsTruthy (env "R2_S3_URL") = true
    case neg =>
      have h2' : jsTruthy (env "R2_S3_URL") = false := by simpa using h2
      simp [getEnvs, h1, h2', hto]
    all_goals by_cases h3 : jsTruthy (env "R2_ACCESS_KEY_ID") = true
    case neg =>
      have h3' : jsTruthy (env "R2_ACCESS_KEY_ID") = false := by simpa using h3
      simp [getEnvs, h1, h2, h3', hto]
    all_goals by_cases h4 : jsTruthy (env "R2_SECRET_ACCESS_KEY") = true
    case neg =>
      have h4' : jsTruthy (env "R2_SECRET_ACCESS_KEY") = false := by simpa using h4
      simp [getEnvs, h1, h2, h3, h4', hto]
    all_goals by_cases h5 : jsTruthy (env "R2_BUCKET_NAME") = true
    case neg =>
      have h5' : jsTruthy (env "R2_BUCKET_NAME") = false := by simpa using h5
      simp [getEnvs, h1, h2, h3, h4, h5', hto]
    all_goals by_cases h6 : jsTruthy (env "R2_PUBLIC_URL") = true
    case neg =>
      have h6' : jsTruthy (env "R2_PUBLIC_URL") = false := by simpa using h6
      simp [getEnvs, h1, h2, h3, h4, h5, h6', hto]
    simp [getEnvs, h1, h2, h3, h4, h5, h6, hto, hgd _ h1, hgd _ h2, hgd _ h3,
      hgd _ h4, hgd _ h5, hgd _ h6]
  · intro h
    have h1 : jsTruthy (env "MISTRAL_OCR_API_KEY") = false := by
      rw [h]
      rfl
    simp [getEnvs, h1]
  · intro e h
    revert h
    unfold getEnvs
    split
    · intro h
      exact absurd h (by simp)
    · split
      · intro h
        exact absurd h (by simp)
      · split
        · intro h
          exact absurd h (by simp)
        · split
          · intro h
            exact absurd h (by simp)
          · split
            · intro h
              exact absurd h (by simp)
            · split
              · intro h
                exact absurd h (by simp)
              · next h1 h2 h3 h4 h5 h6 =>
                intro h
                have he : (⟨(env "MISTRAL_OCR_API_KEY").getD "",
                    (env "R2_S3_URL").getD "", (env "R2_ACCESS_KEY_ID").getD "",
                    (env "R2_SECRET_ACCESS_KEY").getD "",
                    (env "R2_BUCKET_NAME").getD "",
                    (env "R2_PUBLIC_URL").getD ""⟩ : Env) = e := by
                  simpa using h
                subst he
                refine ⟨jsTruthy_getD_ne (by simpa using h1),
                  jsTruthy_getD_ne (by simpa using h2),
                  jsTruthy_getD_ne (by simpa using h3),
                  jsTruthy_getD_ne (by simpa using h4),
                  jsTruthy_getD_ne (by simpa using h5),
                  jsTruthy_getD_ne (by simpa using h6)⟩

/-- C10 witness: the empty-equals-unset behaviour evaluated on an
environment whose MISTRAL_OCR_API_KEY is the empty string, plus the
never-forwards-empty fact on a fully populated environment. -/
theorem C10_witness :
    (getEnvs env2
      = getEnvs (fun k => match env2 k with
          | some s => if s = "" then none else some s
          | none => none)) ∧
    (env2 "MISTRAL_OCR_API_KEY" = some "" ∧
     getEnvs env2 = .error (.validation "MISTRAL_OCR_API_KEY が見つかりません")) ∧
    (getEnvs env0 = .ok envs0 ∧
     envs0.MISTRAL_OCR_API_KEY ≠ "" ∧ envs0.R2_S3_URL ≠ "" ∧
     envs0.R2_ACCESS_KEY_ID ≠ "" ∧ envs0.R2_SECRET_ACCESS_KEY ≠ "" ∧
     envs0.R2_BUCKET_NAME ≠ "" ∧ envs0.R2_PUBLIC_URL ≠ "") := by
  have h0 : getEnvs env0 = .ok envs0 := by rfl
  exact ⟨(C10_empty_env env2).1, ⟨rfl, (C10_empty_env env2).2.1 rfl⟩,
    ⟨h0, (C10_empty_env env0).2.2 envs0 h0⟩⟩

end PdfToMarkdown
